import Mathlib

/-!
Verification of the TuneNoodle browser music player (src/src/App.tsx) against
its natural-language specification.

The embedding is shallow: the React component's state hooks become fields of an
explicit `Session` record, the bound `HTMLAudioElement` becomes a `MediaState`
record, and each handler / effect of the component becomes a pure state
transition.  JS strings are Lean `String`s; because the player's string
processing must be executable inside proofs and Lean's byte-position based
`String` primitives do not reduce in the kernel, the JS string primitives used
by the source (`split`, `trim`, `toLowerCase`, `includes`, `endsWith`,
`decodeURIComponent`, regex replaces) are embedded as structurally recursive
functions over the character list `String.data`.
-/

namespace TuneNoodle

/-- JS `Array.prototype.findIndex`, returned as an optional index
(JS returns `-1` where this returns `none`). -/
def findIdxO {α : Type} (p : α → Bool) : List α → Option Nat
  | [] => none
  | x :: xs => if p x then some 0 else (findIdxO p xs).map (· + 1)

/-- Helper for the JS `includes` embedding: `leadsWith pre l` checks that
`pre` is an initial run of `l`. -/
def leadsWith : List Char → List Char → Bool
  | [], _ => true
  | _ :: _, [] => false
  | a :: as, b :: bs => a == b && leadsWith as bs

/-- Substring containment over character lists: `containsSeq hay needle` is
true iff `needle` occurs contiguously inside `hay` (JS `hay.includes(needle)`). -/
def containsSeq : List Char → List Char → Bool
  | [], needle => needle.isEmpty
  | c :: rest, needle => leadsWith needle (c :: rest) || containsSeq rest needle

/-- JS `s.includes(sub)`. -/
def strIncludes (s sub : String) : Bool := containsSeq s.data sub.data

/-- JS `s.trim()`: drop leading and trailing whitespace. -/
def jsTrim (s : String) : String :=
  String.mk (((s.data.dropWhile Char.isWhitespace).reverse.dropWhile Char.isWhitespace).reverse)

/-- JS `s.toLowerCase()` (ASCII). -/
def jsToLower (s : String) : String := String.mk (s.data.map Char.toLower)

/-- JS `s.endsWith(c)` for a single-character suffix (the loader only tests "/"). -/
def endsWithChar (s : String) (c : Char) : Bool := s.data.getLast? == some c

/-- JS `baseName.split(" - ")`, specialised to the literal three-character
delimiter used by the loader: splits at each non-overlapping left-to-right
occurrence of space-dash-space. -/
def splitDashChars : List Char → List (List Char)
  | [] => [[]]
  | ' ' :: '-' :: ' ' :: rest => [] :: splitDashChars rest
  | c :: rest =>
    match splitDashChars rest with
    | [] => [[c]]
    | part :: parts => (c :: part) :: parts

/-- JS `baseName.split(" - ")` on strings. -/
def splitDash (s : String) : List String := (splitDashChars s.data).map String.mk

/-- Uppercase the first character of a part (JS `part[0].toUpperCase() + part.slice(1)`). -/
def upperFirst : List Char → List Char
  | [] => []
  | c :: rest => c.toUpper :: rest

/-- `toTitleCase` from App.tsx: split on runs of whitespace or underscore
(`/[\s_]+/`), drop empty parts (`filter(Boolean)`), uppercase each part's
first character, and rejoin with single spaces. -/
def toTitleCase (value : String) : String :=
  let parts := (value.data.splitOnP fun c => c.isWhitespace || c == '_').filter fun p => !p.isEmpty
  String.mk (List.intercalate [' '] (parts.map upperFirst))

/-- Value of a hexadecimal digit character, if it is one. -/
def hexVal (c : Char) : Option Nat :=
  if '0' ≤ c ∧ c ≤ '9' then some (c.toNat - '0'.toNat)
  else if 'a' ≤ c ∧ c ≤ 'f' then some (c.toNat - 'a'.toNat + 10)
  else if 'A' ≤ c ∧ c ≤ 'F' then some (c.toNat - 'A'.toNat + 10)
  else none

/-- ASCII fragment of JS `decodeURIComponent`: a "%hh" escape with byte value
below 128 becomes the corresponding character; other byte values (multi-byte
UTF-8 sequences) and malformed escapes are passed through unchanged.  (On
malformed escapes the browser raises `URIError`, which the loader's
surrounding `try` turns into the fallback path; no claim exercises such
inputs, and every concrete input in this file is percent-free.) -/
def percentDecodeChars : List Char → List Char
  | [] => []
  | '%' :: h1 :: h2 :: rest =>
    match hexVal h1, hexVal h2 with
    | some a, some b =>
      if a * 16 + b < 128 then Char.ofNat (a * 16 + b) :: percentDecodeChars rest
      else '%' :: h1 :: h2 :: percentDecodeChars rest
    | _, _ => '%' :: percentDecodeChars (h1 :: h2 :: rest)
  | c :: rest => c :: percentDecodeChars rest

/-- JS `decodeURIComponent` on strings. -/
def percentDecode (s : String) : String := String.mk (percentDecodeChars s.data)

/-- JS `file.name.replace(/\.[^\/.]+$/, "")`: drop a trailing ".ext" whose
extension part is non-empty and contains neither "/" nor ".". -/
def stripExt (name : String) : String :=
  let rev := name.data.reverse
  let extRev := rev.takeWhile fun c => !(c == '.') && !(c == '/')
  match rev.drop extRev.length with
  | '.' :: rest => if extRev.isEmpty then name else String.mk rest.reverse
  | _ => name

/-- The `Song` record of App.tsx. -/
structure Song where
  id : String
  title : String
  artist : String
  duration : ℚ
  accent : String
  src : String
deriving DecidableEq, Repr

/-- The fixed demo catalog `FALLBACK_SONGS` of App.tsx. -/
def FALLBACK_SONGS : List Song :=
  [ { id := "aurora-echoes", title := "Aurora Echoes", artist := "Synth Lab",
      duration := 0, accent := "#1db954", src := "songs/aurora-echoes.wav" },
    { id := "sunset-drive", title := "Sunset Drive", artist := "Neon Nights",
      duration := 0, accent := "#20c997", src := "songs/sunset-drive.wav" },
    { id := "opalescent-sky", title := "Opalescent Sky", artist := "Lumen Bloom",
      duration := 0, accent := "#64b5f6", src := "songs/opalescent-sky.wav" },
    { id := "midnight-canvas", title := "Midnight Canvas", artist := "Violet Wave",
      duration := 0, accent := "#9575cd", src := "songs/midnight-canvas.wav" },
    { id := "luminous-trails", title := "Luminous Trails", artist := "Mirage Bloom",
      duration := 0, accent := "#ff8a65", src := "songs/luminous-trails.wav" } ]

/-- `FALLBACK_SONGS[0]`, the initial selection. -/
def fallbackFirst : Song := FALLBACK_SONGS.get ⟨0, by decide⟩

/-- The `colorPalette` constant of App.tsx. -/
def colorPalette : List String :=
  ["#1db954", "#20c997", "#64b5f6", "#f06292", "#9575cd", "#ff8a65"]

/-- One entry of the storage-bucket listing, paired with the outcome of
`createSignedUrl` for it (`none` when signing failed, so the entry is dropped). -/
structure BucketEntry where
  name : String
  signedUrl : Option String
deriving DecidableEq, Repr

/-- Construction of one catalog `Song` from a surviving bucket file inside
`loadSongs` (App.tsx lines 617-637): strip the extension, percent-decode,
split on " - ", derive title/artist, assign the palette accent by index. -/
def mkSupabaseSong (fileCount : Nat) (name : String) (index : Nat) (url : String) : Song :=
  let baseName := percentDecode (stripExt name)
  let parts := splitDash baseName
  let maybeArtist := parts.headD ""
  let maybeTitle := (parts.get? 1).getD ""
  { id := name ++ "-" ++ toString index
    title := if 1 < fileCount ∧ maybeTitle ≠ "" then toTitleCase maybeTitle else toTitleCase baseName
    artist := if maybeTitle ≠ "" then toTitleCase maybeArtist else "Unknown Artist"
    duration := 0
    accent := (colorPalette.get? (index % colorPalette.length)).getD ""
    src := url }

/-- The catalog resolution step of `loadSongs`.  `listing = none` models every
failure before the mapping step (unconfigured client, list error, null data);
an empty listing, and a listing in which no file yields a signed URL, are also
failures (`throw` in the source).  On success the value is the non-empty list
`supabaseSongs`. -/
def resolveCatalog (listing : Option (List BucketEntry)) : Option (List Song) :=
  match listing with
  | none => none
  | some data =>
    if data.isEmpty then none
    else
      let files := data.filter fun item => item.name != "" && !(endsWithChar item.name '/')
      let supabaseSongs := files.enum.filterMap fun p =>
        match p.2.signedUrl with
        | some url => some (mkSupabaseSong files.length p.2.name p.1 url)
        | none => none
      if supabaseSongs.isEmpty then none else some supabaseSongs

/-- Completion of one `loadSongs` invocation (App.tsx lines 584-657): the new
catalog plus the new selection, given the previously selected song.  On success
the selection keeps the song with the previously selected id if the new catalog
contains it, else the first new song (the `headD` default is unreachable:
`resolveCatalog` never yields an empty list).  On failure both catalog and
selection are replaced by the fallback data. -/
def loadSongsResult (listing : Option (List BucketEntry)) (current : Song) : List Song × Song :=
  match resolveCatalog listing with
  | some supabaseSongs =>
      (supabaseSongs,
        (supabaseSongs.find? fun song => song.id == current.id).getD
          (supabaseSongs.headD current))
  | none => (FALLBACK_SONGS, fallbackFirst)

/-- The component state of App.tsx (`useState` hooks plus the `autoplayRef`
one-shot flag).  Durations and positions are rationals standing for JS
numbers; the source never does arithmetic on them beyond copying. -/
structure Session where
  songs : List Song
  selectedSong : Song
  isLoadingSongs : Bool
  isPlaying : Bool
  progress : ℚ
  searchQuery : String
  likedSongIds : Finset String
  autoplayIntent : Bool
  duration : ℚ

/-- The bound media primitive (`HTMLAudioElement`): source, position, duration,
paused flag, and whether a `play()` request would resolve (`canPlay = false`
models a rejected play, e.g. source not yet loaded or autoplay policy). -/
structure MediaState where
  src : String
  currentTime : ℚ
  duration : ℚ
  paused : Bool
  canPlay : Bool
deriving DecidableEq, Repr

/-- `audio.play()`: on success the element leaves the paused state and the
promise resolves (`true`); on failure nothing changes and the promise rejects. -/
def audioPlay (m : MediaState) : MediaState × Bool :=
  if m.canPlay then ({ m with paused := false }, true) else (m, false)

/-- `audio.pause()`. -/
def audioPause (m : MediaState) : MediaState := { m with paused := true }

/-- Initial component state (App.tsx lines 524-533): fallback catalog, first
fallback song selected, loading, paused at zero. -/
def initialSession : Session :=
  { songs := FALLBACK_SONGS
    selectedSong := fallbackFirst
    isLoadingSongs := true
    isPlaying := false
    progress := 0
    searchQuery := ""
    likedSongIds := ∅
    autoplayIntent := false
    duration := 0 }

/-- `togglePlay` (App.tsx lines 728-738).  When paused it issues
`void audio.play()` — the promise is discarded — and sets `isPlaying := true`
unconditionally, i.e. without waiting for, or reacting to, the play outcome. -/
def togglePlay (s : Session) (m : MediaState) : Session × MediaState :=
  if s.isPlaying then
    ({ s with isPlaying := false }, audioPause m)
  else
    ({ s with isPlaying := true }, (audioPlay m).1)

/-- `handleSelectSong` (App.tsx lines 747-751): arm the one-shot autoplay flag,
change the selection, and set `isPlaying := true` immediately. -/
def handleSelectSong (s : Session) (song : Song) : Session :=
  { s with autoplayIntent := true, selectedSong := song, isPlaying := true }

/-- The `useEffect` on `selectedSong` (App.tsx lines 697-716): pause, rebind the
source, reset position and progress, take the stored duration, then either
consume the autoplay flag and issue `play()` — setting `isPlaying := true` only
in the promise's `then` callback, so only when the play resolved — or, without
autoplay intent, set `isPlaying := false`.  (`selectedSong.duration || 0`
equals the stored duration for the non-negative rationals modelled here.) -/
def bindSelectedSong (s : Session) (m : MediaState) : Session × MediaState :=
  let m1 := { m with paused := true, src := s.selectedSong.src, currentTime := 0 }
  let s1 := { s with progress := 0, duration := s.selectedSong.duration }
  if s1.autoplayIntent then
    let s2 := { s1 with autoplayIntent := false }
    let played := audioPlay m1
    ((if played.2 then { s2 with isPlaying := true } else s2), played.1)
  else
    ({ s1 with isPlaying := false }, m1)

/-- `handleEnded` (App.tsx lines 681-684): stop, and snap the progress to the
media element's duration. -/
def handleEnded (s : Session) (m : MediaState) : Session :=
  { s with isPlaying := false, progress := m.duration }

/-- The updater of `handleToggleLike` (App.tsx lines 753-763): flip membership
of the one id in the liked set. -/
def handleToggleLike (prev : Finset String) (songId : String) : Finset String :=
  if songId ∈ prev then prev.erase songId else insert songId prev

/-- `isSongLiked` (App.tsx line 783). -/
def isSongLiked (likedSongIds : Finset String) (songId : String) : Bool :=
  songId ∈ likedSongIds

/-- The `displayedSongs` memo (App.tsx lines 547-555): trimmed, lower-cased
query; empty query means no filter; otherwise keep songs whose lower-cased
title or artist contains the query. -/
def displayedSongs (songs : List Song) (searchQuery : String) : List Song :=
  let query := jsToLower (jsTrim searchQuery)
  if query = "" then songs
  else songs.filter fun song =>
    let titleMatch := strIncludes (jsToLower song.title) query
    let artistMatch := strIncludes (jsToLower song.artist) query
    titleMatch || artistMatch

/-- Direction argument of `handleSkip`. -/
inductive SkipDirection where
  | next
  | prev
deriving DecidableEq, Repr

/-- The navigation list used by `handleSkip`: the filtered view when it is
non-empty, else the full catalog. -/
def skipCandidates (s : Session) : List Song :=
  if 0 < (displayedSongs s.songs s.searchQuery).length
  then displayedSongs s.songs s.searchQuery
  else s.songs

/-- The wraparound index computation of `handleSkip`.  The `prev` case embeds
JS `(currentIndex - 1 + n) % n`, written `(currentIndex + n) - 1` since the JS
value is non-negative for every index `currentIndex ≥ 0` and `n ≥ 1`. -/
def skipIndex (dir : SkipDirection) (currentIndex n : Nat) : Nat :=
  match dir with
  | .next => (currentIndex + 1) % n
  | .prev => (currentIndex + n - 1) % n

/-- `handleSkip` (App.tsx lines 765-781): over the candidate list, no-op when it
is empty; select its head when the current selection is not found; otherwise
select the wraparound neighbour.  Selection goes through `handleSelectSong`
(autoplay intent).  The `getD` default is unreachable: the computed index is
always in range. -/
def handleSkip (s : Session) (dir : SkipDirection) : Session :=
  let candidateList := skipCandidates s
  if candidateList.length = 0 then s
  else
    match findIdxO (fun song => song.id == s.selectedSong.id) candidateList with
    | none => handleSelectSong s (candidateList.headD s.selectedSong)
    | some currentIndex =>
        handleSelectSong s
          ((candidateList.get? (skipIndex dir currentIndex candidateList.length)).getD
            s.selectedSong)

/-- `FALLBACK_SONGS[1]` ("Sunset Drive"), used as a pre-selected song in
concrete scenarios. -/
def fallbackSecond : Song := FALLBACK_SONGS.get ⟨1, by decide⟩

/-- A media element whose `play()` request rejects (e.g. source not loaded or
blocked by autoplay policy). -/
def mediaBlocked : MediaState :=
  { src := "", currentTime := 0, duration := 0, paused := true, canPlay := false }

/-- A media element whose `play()` request resolves. -/
def mediaReady : MediaState :=
  { src := "", currentTime := 0, duration := 0, paused := true, canPlay := true }

/-- A one-entry bucket listing whose single file signs successfully. -/
def entrySolo : BucketEntry := { name := "neon - drive.mp3", signedUrl := some "u" }

/-! Helper lemmas. -/

theorem containsSeq_nil : ∀ hay : List Char, containsSeq hay [] = true
  | [] => rfl
  | _ :: _ => by simp [containsSeq, leadsWith]

theorem displayedSongs_eq_filter (songs : List Song) (q : String) :
    displayedSongs songs q = songs.filter fun song =>
      strIncludes (jsToLower song.title) (jsToLower (jsTrim q)) ||
        strIncludes (jsToLower song.artist) (jsToLower (jsTrim q)) := by
  unfold displayedSongs
  by_cases h : jsToLower (jsTrim q) = ""
  · rw [if_pos h, h]
    refine (List.filter_eq_self.mpr ?_).symm
    intro song _
    simp [strIncludes, show ("" : String).data = [] from rfl, containsSeq_nil]
  · rw [if_neg h]

theorem displayedSongs_sublist (songs : List Song) (q : String) :
    (displayedSongs songs q).Sublist songs := by
  rw [displayedSongs_eq_filter]
  exact List.filter_sublist songs

theorem resolveCatalog_ne_nil {listing : Option (List BucketEntry)} {ss : List Song}
    (h : resolveCatalog listing = some ss) : ss ≠ [] := by
  unfold resolveCatalog at h
  split at h
  · exact absurd h (by simp)
  · split at h
    · exact absurd h (by simp)
    · dsimp only at h
      split at h
      · exact absurd h (by simp)
      · rename_i hne
        cases h
        intro hnil
        rw [hnil] at hne
        exact hne rfl

theorem headD_mem {α : Type} {l : List α} (h : l ≠ []) (d : α) : l.headD d ∈ l := by
  cases l with
  | nil => exact absurd rfl h
  | cons x xs => simp [List.headD]

theorem findIdxO_get_of_nodup :
    ∀ (v : List Song) (j : Nat) (hj : j < v.length),
      ((v.map Song.id).Nodup) →
      findIdxO (fun t => t.id == (v.get ⟨j, hj⟩).id) v = some j := by
  intro v
  induction v with
  | nil => intro j hj _; simp at hj
  | cons x xs ih =>
    intro j hj hnd
    rw [List.map_cons, List.nodup_cons] at hnd
    obtain ⟨hx, hxs⟩ := hnd
    match j with
    | 0 => simp [findIdxO]
    | k + 1 =>
      have hk : k < xs.length := by simpa using hj
      have hget : (x :: xs).get ⟨k + 1, hj⟩ = xs.get ⟨k, hk⟩ := rfl
      rw [hget]
      have hne : (x.id == (xs.get ⟨k, hk⟩).id) = false := by
        rw [beq_eq_false_iff_ne]
        intro he
        exact hx (he ▸ List.mem_map_of_mem Song.id (List.get_mem xs k hk))
      show (if (x.id == (xs.get ⟨k, hk⟩).id) = true then some 0
        else (findIdxO (fun t => t.id == (xs.get ⟨k, hk⟩).id) xs).map (· + 1)) = some (k + 1)
      rw [hne, if_neg (by simp), ih k hk hxs]
      rfl

theorem findIdxO_of_mem_nodup {v : List Song} {s : Song}
    (hmem : s ∈ v) (hnd : (v.map Song.id).Nodup) :
    ∃ j, ∃ hj : j < v.length, v.get ⟨j, hj⟩ = s ∧
      findIdxO (fun t => t.id == s.id) v = some j := by
  obtain ⟨⟨j, hj⟩, hget⟩ := List.mem_iff_get.mp hmem
  exact ⟨j, hj, hget, by rw [← hget]; exact findIdxO_get_of_nodup v j hj hnd⟩

theorem skipIndex_lt (dir : SkipDirection) (i n : Nat) (hn : 0 < n) :
    skipIndex dir i n < n := by
  cases dir <;> exact Nat.mod_lt _ hn

theorem skipIndex_prev_next {i n : Nat} (hn : 0 < n) (hi : i < n) :
    skipIndex .prev (skipIndex .next i n) n = i := by
  show (((i + 1) % n) + n - 1) % n = i
  rcases Nat.lt_or_ge (i + 1) n with h | h
  · rw [Nat.mod_eq_of_lt h]
    have he : i + 1 + n - 1 = i + n := by omega
    rw [he, Nat.add_mod_right, Nat.mod_eq_of_lt hi]
  · have hin : i + 1 = n := by omega
    rw [hin, Nat.mod_self]
    have he : 0 + n - 1 = n - 1 := by omega
    rw [he, Nat.mod_eq_of_lt (by omega)]
    omega

theorem handleSkip_empty {s : Session} (dir : SkipDirection)
    (h : (skipCandidates s).length = 0) : handleSkip s dir = s := by
  simp only [handleSkip]
  rw [if_pos h]

theorem handleSkip_notfound {s : Session} (dir : SkipDirection)
    (hne : ¬(skipCandidates s).length = 0)
    (h : findIdxO (fun song => song.id == s.selectedSong.id) (skipCandidates s) = none) :
    handleSkip s dir = handleSelectSong s ((skipCandidates s).headD s.selectedSong) := by
  simp only [handleSkip]
  rw [if_neg hne, h]

theorem handleSkip_found {s : Session} {i : Nat} (dir : SkipDirection)
    (hfind : findIdxO (fun song => song.id == s.selectedSong.id) (skipCandidates s) = some i)
    (hne : ¬(skipCandidates s).length = 0) :
    handleSkip s dir =
      handleSelectSong s
        (((skipCandidates s).get? (skipIndex dir i (skipCandidates s).length)).getD
          s.selectedSong) := by
  simp only [handleSkip]
  rw [if_neg hne, hfind]

theorem handleSkip_songs (s : Session) (dir : SkipDirection) :
    (handleSkip s dir).songs = s.songs := by
  by_cases hc : (skipCandidates s).length = 0
  · rw [handleSkip_empty dir hc]
  · cases hf : findIdxO (fun song => song.id == s.selectedSong.id) (skipCandidates s) with
    | none => rw [handleSkip_notfound dir hc hf]; rfl
    | some i => rw [handleSkip_found dir hf hc]; rfl

theorem skipCandidates_subset (s : Session) : ∀ x ∈ skipCandidates s, x ∈ s.songs := by
  intro x hx
  unfold skipCandidates at hx
  split at hx
  · exact (displayedSongs_sublist s.songs s.searchQuery).subset hx
  · exact hx

/-! Claim C1. -/

/-- C1 counterexample: from the paused initial state, with a media element
whose `play()` rejects, `togglePlay` nevertheless reports `isPlaying = true`
while the element is still paused — the state claims Playing although the
underlying play request failed, contradicting the claim that `isPlaying` is
the confirmed state and must stay Paused on failure. -/
theorem c1_counterexample :
    initialSession.isPlaying = false ∧ mediaBlocked.canPlay = false ∧
    ((togglePlay initialSession mediaBlocked).1).isPlaying = true ∧
    ((togglePlay initialSession mediaBlocked).2).paused = true :=
  ⟨rfl, rfl, rfl, rfl⟩

/-- C1 (amended): `isPlaying` is set optimistically, not from the confirmed
play state.  `togglePlay` from a paused session sets `isPlaying := true`
regardless of the play outcome (the promise is discarded), and
`handleSelectSong` sets `isPlaying := true` immediately; only the
track-rebinding effect's autoplay path waits for the play promise — it sets
`isPlaying := true` exactly when the play resolved, and on a rejected play it
leaves `isPlaying` as the caller set it (true after a user selection), with no
retry. -/
theorem c1_optimistic_playing :
    (∀ (s : Session) (m : MediaState), s.isPlaying = false →
        ((togglePlay s m).1).isPlaying = true)
    ∧ (∀ (s : Session) (song : Song), (handleSelectSong s song).isPlaying = true)
    ∧ (∀ (s : Session) (m : MediaState), s.autoplayIntent = true → m.canPlay = false →
        ((bindSelectedSong s m).1).isPlaying = s.isPlaying)
    ∧ (∀ (s : Session) (m : MediaState), s.autoplayIntent = true → m.canPlay = true →
        ((bindSelectedSong s m).1).isPlaying = true) := by
  refine ⟨?_, ?_, ?_, ?_⟩
  · intro s m h
    simp [togglePlay, h]
  · intro s song
    rfl
  · intro s m ha hc
    simp [bindSelectedSong, audioPlay, ha, hc]
  · intro s m ha hc
    simp [bindSelectedSong, audioPlay, ha, hc]

/-- Witness for the amended C1 at concrete inputs. -/
theorem c1_witness :
    ((togglePlay initialSession mediaReady).1).isPlaying = true ∧
    ((bindSelectedSong (handleSelectSong initialSession fallbackFirst) mediaBlocked).1).isPlaying =
      (handleSelectSong initialSession fallbackFirst).isPlaying :=
  ⟨c1_optimistic_playing.1 initialSession mediaReady rfl,
   c1_optimistic_playing.2.2.1 (handleSelectSong initialSession fallbackFirst) mediaBlocked rfl rfl⟩

/-! Claim C2. -/

/-- C2 counterexample: the user has "sunset-drive" selected, the remote load
fails, and the fallback catalog is substituted.  "sunset-drive" is present in
the resulting catalog, yet the selection is reset to "aurora-echoes" (the
first fallback track) instead of being kept — the continuity rule does not
hold on the fallback path. -/
theorem c2_counterexample :
    fallbackSecond.id = "sunset-drive" ∧
    (∃ t ∈ (loadSongsResult none fallbackSecond).1, t.id = "sunset-drive") ∧
    ((loadSongsResult none fallbackSecond).2).id = "aurora-echoes" :=
  ⟨by decide, by decide, by decide⟩

/-- C2 (amended): the continuity rule holds only on the success path of
`loadSongs` — there, a song of the resolved catalog with the previously
selected id stays selected, else the first resolved song is selected; on the
failure path the whole result is the fallback catalog with the FIRST fallback
track selected unconditionally, even when the previously selected id occurs in
the fallback catalog. -/
theorem c2_selection_continuity :
    ∀ (listing : Option (List BucketEntry)) (current : Song),
      (∀ ss, resolveCatalog listing = some ss →
        ((∃ t ∈ ss, t.id = current.id) →
            ((loadSongsResult listing current).2).id = current.id)
        ∧ ((¬ ∃ t ∈ ss, t.id = current.id) →
            (loadSongsResult listing current).2 = ss.headD current))
      ∧ (resolveCatalog listing = none →
          loadSongsResult listing current = (FALLBACK_SONGS, fallbackFirst)) := by
  intro listing current
  constructor
  · intro ss hres
    constructor
    · rintro ⟨t, ht, hid⟩
      unfold loadSongsResult
      rw [hres]
      cases hf : ss.find? (fun song => song.id == current.id) with
      | none =>
        have := List.find?_eq_none.mp hf t ht
        exact absurd (by simp [hid]) this
      | some u =>
        have hu := List.find?_some hf
        dsimp only
        rw [hf]
        simpa using beq_iff_eq.mp hu
    · intro hno
      unfold loadSongsResult
      rw [hres]
      have hf : ss.find? (fun song => song.id == current.id) = none := by
        rw [List.find?_eq_none]
        intro x hx hbeq
        exact hno ⟨x, hx, beq_iff_eq.mp hbeq⟩
      dsimp only
      rw [hf]
      rfl
  · intro hres
    unfold loadSongsResult
    rw [hres]

/-- Witness for the amended C2: a successful one-file load whose catalog does
not contain the previously selected id selects the first resolved song. -/
theorem c2_witness :
    (loadSongsResult (some [entrySolo]) fallbackFirst).2 =
      [mkSupabaseSong 1 "neon - drive.mp3" 0 "u"].headD fallbackFirst :=
  ((c2_selection_continuity (some [entrySolo]) fallbackFirst).1
      [mkSupabaseSong 1 "neon - drive.mp3" 0 "u"] (by decide)).2 (by decide)

/-! Claim C3. -/

/-- C3 counterexample: a listing with exactly ONE file, named
"neon - drive.mp3", which survives filtering and signing.  The claim requires
the artist to be "Unknown Artist" (the split succeeds but only one file was
listed, so its artist/title branch does not apply); the code instead derives
artist "Neon", because the artist assignment tests only that the second split
part is truthy and ignores the file count. -/
theorem c3_counterexample :
    ((loadSongsResult (some [entrySolo]) fallbackFirst).1.map Song.artist = ["Neon"]) ∧
    ("Neon" : String) ≠ "Unknown Artist" :=
  ⟨by decide, by decide⟩

/-- C3 (amended): for a surviving entry, with `parts` the split of the cleaned
filename (extension stripped, percent-decoded) on " - ": the artist is the
title-cased FIRST part whenever the SECOND part exists and is non-empty —
regardless of the file count, and even if the first part is empty — and
"Unknown Artist" otherwise; the title is the title-cased second part exactly
when more than one file was listed AND the second part is non-empty, and the
title-cased whole cleaned filename otherwise.  (With three or more parts only
the second is used for the title; the rest are dropped.) -/
theorem c3_metadata_rule :
    ∀ (fileCount : Nat) (name : String) (index : Nat) (url : String),
      ((mkSupabaseSong fileCount name index url).artist =
        if ((splitDash (percentDecode (stripExt name))).get? 1).getD "" ≠ "" then
          toTitleCase ((splitDash (percentDecode (stripExt name))).headD "")
        else "Unknown Artist")
      ∧ ((mkSupabaseSong fileCount name index url).title =
        if 1 < fileCount ∧ ((splitDash (percentDecode (stripExt name))).get? 1).getD "" ≠ "" then
          toTitleCase (((splitDash (percentDecode (stripExt name))).get? 1).getD "")
        else toTitleCase (percentDecode (stripExt name))) := by
  intro fileCount name index url
  exact ⟨rfl, rfl⟩

/-! Claim C4. -/

/-- C4 (confirmed): every completed `loadSongs` invocation yields a non-empty
catalog; whenever catalog resolution fails (source unreachable or
unconfigured, empty listing, or zero usable signed tracks), the result is
exactly the fixed 5-track fallback catalog. -/
theorem c4_catalog_nonempty :
    ∀ (listing : Option (List BucketEntry)) (current : Song),
      (loadSongsResult listing current).1 ≠ []
      ∧ (resolveCatalog listing = none →
          (loadSongsResult listing current).1 = FALLBACK_SONGS ∧ FALLBACK_SONGS.length = 5) := by
  intro listing current
  constructor
  · cases hres : resolveCatalog listing with
    | none =>
      unfold loadSongsResult
      rw [hres]
      dsimp only
      decide
    | some ss =>
      unfold loadSongsResult
      rw [hres]
      exact resolveCatalog_ne_nil hres
  · intro hres
    unfold loadSongsResult
    rw [hres]
    exact ⟨rfl, rfl⟩

/-- Witness for C4 at a concrete failing load. -/
theorem c4_witness :
    (loadSongsResult none fallbackFirst).1 ≠ [] ∧
    (loadSongsResult none fallbackFirst).1 = FALLBACK_SONGS :=
  ⟨(c4_catalog_nonempty none fallbackFirst).1,
   ((c4_catalog_nonempty none fallbackFirst).2 rfl).1⟩

/-! Claim C5. -/

/-- C5 (confirmed): with a stable filtered view that contains the currently
selected track (and, per the data model, pairwise-distinct track ids),
`Skip('next')` followed by `Skip('prev')` returns the selection to the
original track; on a one-element view both skips keep the same track
selected.  The skip index is the wraparound neighbour over the filtered view
(over the full catalog only when the view is empty). -/
theorem c5_skip_round_trip :
    (∀ s : Session,
        s.selectedSong ∈ displayedSongs s.songs s.searchQuery →
        ((displayedSongs s.songs s.searchQuery).map Song.id).Nodup →
        (handleSkip (handleSkip s .next) .prev).selectedSong = s.selectedSong)
    ∧ (∀ s : Session,
        displayedSongs s.songs s.searchQuery = [s.selectedSong] →
        (handleSkip s .next).selectedSong = s.selectedSong ∧
          (handleSkip s .prev).selectedSong = s.selectedSong) := by
  constructor
  · intro s hmem hnd
    set v := displayedSongs s.songs s.searchQuery with hv
    have hvne : v ≠ [] := by
      intro h
      rw [h] at hmem
      exact (List.not_mem_nil _) hmem
    have hlen : 0 < v.length := List.length_pos.mpr hvne
    have hcand : skipCandidates s = v := by
      unfold skipCandidates
      rw [← hv, if_pos hlen]
    obtain ⟨i, hi, hget, hfind⟩ := findIdxO_of_mem_nodup hmem hnd
    have hj : skipIndex .next i v.length < v.length := skipIndex_lt .next i v.length hlen
    have h1 : handleSkip s .next = handleSelectSong s (v.get ⟨skipIndex .next i v.length, hj⟩) := by
      rw [handleSkip_found .next (by rw [hcand]; exact hfind) (by rw [hcand]; omega)]
      rw [hcand, List.get?_eq_get hj]
      rfl
    set s1 := handleSelectSong s (v.get ⟨skipIndex .next i v.length, hj⟩) with hs1
    have hv1 : displayedSongs s1.songs s1.searchQuery = v := hv.symm
    have hcand1 : skipCandidates s1 = v := by
      unfold skipCandidates
      rw [hv1, if_pos hlen]
    have hfind1 : findIdxO (fun song => song.id == s1.selectedSong.id) (skipCandidates s1) =
        some (skipIndex .next i v.length) := by
      rw [hcand1]
      exact findIdxO_get_of_nodup v (skipIndex .next i v.length) hj hnd
    have hk : skipIndex .prev (skipIndex .next i v.length) v.length < v.length :=
      skipIndex_lt .prev _ v.length hlen
    have h2 : handleSkip s1 .prev =
        handleSelectSong s1 (v.get ⟨skipIndex .prev (skipIndex .next i v.length) v.length, hk⟩) := by
      rw [handleSkip_found .prev hfind1 (by rw [hcand1]; omega)]
      rw [hcand1, List.get?_eq_get hk]
      rfl
    rw [h1, h2]
    show v.get ⟨skipIndex .prev (skipIndex .next i v.length) v.length, hk⟩ = s.selectedSong
    have hidx : skipIndex .prev (skipIndex .next i v.length) v.length = i :=
      skipIndex_prev_next hlen hi
    rw [← hget]
    congr 1
    exact Fin.ext hidx
  · intro s hone
    have hcand : skipCandidates s = [s.selectedSong] := by
      unfold skipCandidates
      rw [hone]
      simp
    have hfind : findIdxO (fun song => song.id == s.selectedSong.id) (skipCandidates s) =
        some 0 := by
      rw [hcand]
      simp [findIdxO]
    have hlen : ¬(skipCandidates s).length = 0 := by
      rw [hcand]
      simp
    have hidx : ∀ d : SkipDirection, skipIndex d 0 [s.selectedSong].length = 0 := by
      intro d
      cases d <;> simp [skipIndex]
    refine ⟨?_, ?_⟩ <;>
    · rw [handleSkip_found _ hfind hlen, hcand, hidx]
      rfl

/-- Witness for C5: over the unfiltered fallback catalog (all five ids
distinct) the round trip returns to the initial selection, and with the query
"aurora" the view is the singleton "Aurora Echoes" and both skips keep it. -/
theorem c5_witness :
    (handleSkip (handleSkip initialSession .next) .prev).selectedSong =
      initialSession.selectedSong
    ∧ (handleSkip { initialSession with searchQuery := "aurora" } .next).selectedSong =
        ({ initialSession with searchQuery := "aurora" } : Session).selectedSong :=
  ⟨c5_skip_round_trip.1 initialSession (by decide) (by decide),
   (c5_skip_round_trip.2 { initialSession with searchQuery := "aurora" } (by decide)).1⟩

/-! Claim C6. -/

/-- C6 (confirmed): the filtered view is exactly the order-preserving
subsequence of the catalog whose songs' lower-cased title or artist contains
the trimmed, lower-cased query as a substring, and an empty or
whitespace-only query yields the whole catalog unchanged. -/
theorem c6_filtered_view :
    ∀ (songs : List Song) (q : String),
      (displayedSongs songs q).Sublist songs
      ∧ displayedSongs songs q = songs.filter (fun song =>
          strIncludes (jsToLower song.title) (jsToLower (jsTrim q)) ||
            strIncludes (jsToLower song.artist) (jsToLower (jsTrim q)))
      ∧ (jsTrim q = "" → displayedSongs songs q = songs) := by
  intro songs q
  refine ⟨displayedSongs_sublist songs q, displayedSongs_eq_filter songs q, ?_⟩
  intro h
  have h0 : jsToLower "" = "" := rfl
  simp [displayedSongs, h, h0]

/-- Witness for C6: a whitespace-only query leaves the fallback catalog
unfiltered. -/
theorem c6_witness : displayedSongs FALLBACK_SONGS "  " = FALLBACK_SONGS :=
  (c6_filtered_view FALLBACK_SONGS "  ").2.2 (by decide)

/-! Claim C7. -/

/-- C7 (confirmed): one `Toggle(x)` flips the liked-membership of exactly the
id `x` and leaves every other id unchanged, and applying `Toggle(x)` twice
restores the original liked set, so `IsLiked(x)` is back to its prior value. -/
theorem c7_toggle_like :
    ∀ (liked : Finset String) (x : String),
      handleToggleLike (handleToggleLike liked x) x = liked
      ∧ isSongLiked (handleToggleLike liked x) x = !(isSongLiked liked x)
      ∧ ∀ y : String, y ≠ x →
          isSongLiked (handleToggleLike liked x) y = isSongLiked liked y := by
  intro liked x
  by_cases hx : x ∈ liked
  · refine ⟨?_, ?_, ?_⟩
    · have h1 : handleToggleLike liked x = liked.erase x := if_pos hx
      rw [h1]
      have h2 : handleToggleLike (liked.erase x) x = insert x (liked.erase x) :=
        if_neg (Finset.not_mem_erase x liked)
      rw [h2]
      exact Finset.insert_erase hx
    · simp [isSongLiked, handleToggleLike, hx]
    · intro y hy
      simp [isSongLiked, handleToggleLike, hx, Finset.mem_erase, hy]
  · refine ⟨?_, ?_, ?_⟩
    · have h1 : handleToggleLike liked x = insert x liked := if_neg hx
      rw [h1]
      have h2 : handleToggleLike (insert x liked) x = (insert x liked).erase x :=
        if_pos (Finset.mem_insert_self x liked)
      rw [h2]
      exact Finset.erase_insert hx
    · simp [isSongLiked, handleToggleLike, hx]
    · intro y hy
      simp [isSongLiked, handleToggleLike, hx, Finset.mem_insert, hy]

/-- Witness for C7 at a concrete liked set. -/
theorem c7_witness :
    handleToggleLike (handleToggleLike ({"a"} : Finset String) "b") "b" =
      ({"a"} : Finset String)
    ∧ isSongLiked (handleToggleLike ({"a"} : Finset String) "b") "a" =
        isSongLiked ({"a"} : Finset String) "a" :=
  ⟨(c7_toggle_like {"a"} "b").1, (c7_toggle_like {"a"} "b").2.2 "a" (by decide)⟩

/-! Claim C8. -/

/-- C8 (confirmed): when the media element's `ended` event fires with the
session's known duration in sync with the element's, the resulting state is
not playing and its progress is snapped to the duration, and neither the
selected track nor the catalog changes — no automatic advance occurs. -/
theorem c8_on_ended :
    ∀ (s : Session) (m : MediaState), s.duration = m.duration →
      (handleEnded s m).isPlaying = false
      ∧ (handleEnded s m).progress = s.duration
      ∧ (handleEnded s m).selectedSong = s.selectedSong
      ∧ (handleEnded s m).songs = s.songs := by
  intro s m h
  exact ⟨rfl, by simp [handleEnded, h], rfl, rfl⟩

/-- Witness for C8: duration 180 gives progress 180, paused, same selection. -/
theorem c8_witness :
    (handleEnded { initialSession with duration := 180 }
        { mediaReady with duration := 180 }).isPlaying = false
    ∧ (handleEnded { initialSession with duration := 180 }
        { mediaReady with duration := 180 }).progress = (180 : ℚ)
    ∧ (handleEnded { initialSession with duration := 180 }
        { mediaReady with duration := 180 }).selectedSong = fallbackFirst :=
  ⟨(c8_on_ended { initialSession with duration := 180 } { mediaReady with duration := 180 } rfl).1,
   (c8_on_ended { initialSession with duration := 180 } { mediaReady with duration := 180 } rfl).2.1,
   (c8_on_ended { initialSession with duration := 180 } { mediaReady with duration := 180 } rfl).2.2.1⟩

/-! Claim C9. -/

/-- C9 (confirmed): the selected song is always an element of the current
catalog — in the initial state, after any completed catalog load (success or
fallback), after selecting any song of the catalog, and after a skip in
either direction. -/
theorem c9_selection_in_catalog :
    initialSession.selectedSong ∈ initialSession.songs
    ∧ (∀ (listing : Option (List BucketEntry)) (current : Song),
        (loadSongsResult listing current).2 ∈ (loadSongsResult listing current).1)
    ∧ (∀ (s : Session) (song : Song), song ∈ s.songs →
        (handleSelectSong s song).selectedSong ∈ (handleSelectSong s song).songs)
    ∧ (∀ (s : Session) (dir : SkipDirection), s.selectedSong ∈ s.songs →
        (handleSkip s dir).selectedSong ∈ (handleSkip s dir).songs) := by
  refine ⟨by decide, ?_, ?_, ?_⟩
  · intro listing current
    cases hres : resolveCatalog listing with
    | none =>
      unfold loadSongsResult
      rw [hres]
      dsimp only
      decide
    | some ss =>
      unfold loadSongsResult
      rw [hres]
      dsimp only
      cases hf : ss.find? (fun song => song.id == current.id) with
      | some t =>
        simpa using List.mem_of_find?_eq_some hf
      | none =>
        simpa using headD_mem (resolveCatalog_ne_nil hres) current
  · intro s song h
    exact h
  · intro s dir hsel
    rw [handleSkip_songs s dir]
    by_cases hc : (skipCandidates s).length = 0
    · rw [handleSkip_empty dir hc]
      exact hsel
    · cases hf : findIdxO (fun song => song.id == s.selectedSong.id) (skipCandidates s) with
      | none =>
        rw [handleSkip_notfound dir hc hf]
        have hne : skipCandidates s ≠ [] := by
          intro h
          rw [h] at hc
          exact hc rfl
        exact skipCandidates_subset s _ (headD_mem hne s.selectedSong)
      | some i =>
        rw [handleSkip_found dir hf hc]
        cases hg : (skipCandidates s).get? (skipIndex dir i (skipCandidates s).length) with
        | none =>
          exact hsel
        | some y =>
          exact skipCandidates_subset s y (List.get?_mem hg)

/-- Witness for C9 at concrete operations on the initial session. -/
theorem c9_witness :
    (handleSelectSong initialSession fallbackSecond).selectedSong ∈
      (handleSelectSong initialSession fallbackSecond).songs
    ∧ (handleSkip initialSession .next).selectedSong ∈ (handleSkip initialSession .next).songs :=
  ⟨c9_selection_in_catalog.2.2.1 initialSession fallbackSecond (by decide),
   c9_selection_in_catalog.2.2.2 initialSession .next (by decide)⟩

/-! Claim C10. -/

/-- C10 (confirmed): every user-initiated selection arms the one-shot autoplay
intent and the playing flag — `handleSelectSong` does so unconditionally, and
`handleSkip` either changes nothing at all (empty candidate list) or selects
through `handleSelectSong`, leaving autoplay intent and the playing flag set. -/
theorem c10_selection_arms_autoplay :
    (∀ (s : Session) (song : Song),
        (handleSelectSong s song).autoplayIntent = true ∧
        (handleSelectSong s song).isPlaying = true ∧
        (handleSelectSong s song).selectedSong = song)
    ∧ (∀ (s : Session) (dir : SkipDirection),
        handleSkip s dir = s ∨
          ((handleSkip s dir).autoplayIntent = true ∧ (handleSkip s dir).isPlaying = true)) := by
  constructor
  · intro s song
    exact ⟨rfl, rfl, rfl⟩
  · intro s dir
    by_cases hc : (skipCandidates s).length = 0
    · exact Or.inl (handleSkip_empty dir hc)
    · right
      cases hf : findIdxO (fun song => song.id == s.selectedSong.id) (skipCandidates s) with
      | none =>
        rw [handleSkip_notfound dir hc hf]
        exact ⟨rfl, rfl⟩
      | some i =>
        rw [handleSkip_found dir hf hc]
        exact ⟨rfl, rfl⟩

end TuneNoodle
